import Mathlib

/-!
Verification of the YarnSpinner-Rust compiler front end: a shallow embedding
of the indentation-aware lexer wrapper
(crates/compiler/src/parser/indent_aware_lexer.rs) and of the four-pass
compilation pipeline (crates/compiler/src/compiler.rs), with theorems about
the documented behaviour of both.
-/

namespace YarnSpinner

/-! ### Token types

Modelled from the spec: the token-type identifiers come from the external
grammar-generated lexer (`generated/yarnspinnerlexer.rs`, not part of the
embedded sources). Only their distinctness is relied upon; `TOKEN_EOF = -1`
is the ANTLR convention.
-/

def TOKEN_EOF : Int := -1

def NEWLINE : Int := 1

def SHORTCUT_ARROW : Int := 2

def BODY_END : Int := 3

def INDENT : Int := 4

def DEDENT : Int := 5

def BLANK_LINE_FOLLOWING_OPTION : Int := 6

/-- Severity of a `Diagnostic`, as in the compiler crate. -/
inductive DiagnosticSeverity where
  | Error
  | Warning
  | Info
deriving DecidableEq, Repr

/-- A position inside a source file (`output::Position`). -/
structure Position where
  line : Nat
  character : Nat
deriving DecidableEq, Repr

/-- A compiler diagnostic, with the fields populated by the indent-aware
lexer (`Diagnostic::from_message(...).with_range(...).with_context(...)
.with_start_line(...).with_file_name(...).with_severity(...)`). -/
structure Diagnostic where
  message : String
  range_start : Position
  range_stop : Position
  context : String
  start_line : Nat
  file_name : String
  severity : DiagnosticSeverity
deriving DecidableEq, Repr

/-- A lexer token: type code, text and source line. Column/char-index
metadata of the Rust `CommonToken` is omitted as no theorem consumes it. -/
structure Tok where
  tokenType : Int
  text : String
  line : Int
deriving DecidableEq, Repr

/-- The mutable state of `IndentAwareYarnSpinnerLexer`, minus the wrapped
base lexer (whose output is fed to `check_next_token` explicitly). -/
structure LexerState where
  /-- Holds the last observed token from the stream. -/
  lastToken : Option Tok
  /-- FIFO queue of computed but not-yet-returned tokens (`pending_tokens`). -/
  pendingTokens : List Tok
  /-- Whether the last line observed contained a shortcut arrow. -/
  lineContainsShortcut : Bool
  /-- The last indentation depth encountered (`last_indent`). -/
  lastIndent : Int
  /-- LIFO stack of unbalanced indentation depths; head is the top. -/
  unbalancedIndents : List Int
  /-- Line number of the last seen option content (`last_seen_option_content`). -/
  lastSeenOptionContent : Option Int
  /-- Diagnostics sink shared with the compilation run. -/
  diagnostics : List Diagnostic
deriving DecidableEq, Repr

/-- The state of a freshly constructed lexer (`IndentAwareYarnSpinnerLexer::new`). -/
def initial_state : LexerState :=
  { lastToken := none
    pendingTokens := []
    lineContainsShortcut := false
    lastIndent := 0
    unbalancedIndents := []
    lastSeenOptionContent := none
    diagnostics := [] }

/-- Rust `insert_token`: enqueue a synthesized token with the given text and type
at the lexer's current line, as though it had appeared in the input stream. -/
def insert_token (st : LexerState) (text : String) (token_type : Int) (line : Int) : LexerState :=
  { st with pendingTokens := st.pendingTokens ++ [{ tokenType := token_type, text := text, line := line }] }

/-- Rust `get_newline_indentation_range`: the diagnostic range for a mixed
indentation warning, spanning from character 0 to the token text length. -/
def get_newline_indentation_range (tok : Tok) : Position × Position :=
  ({ line := tok.line.toNat, character := 0 }, { line := tok.line.toNat, character := tok.text.length })

/-- Rust `get_newline_indentation_text`: the token text with the leading newline
character skipped. -/
def get_newline_indentation_text (tok : Tok) : String :=
  String.mk (tok.text.toList.drop 1)

/-- Rust `get_length_of_newline_token`: given a NEWLINE token, the length of the
indentation following it (each space counts 1, each tab counts 8), together
with the mixed tabs/spaces warning if both kinds occurred. `none` models the
panic taken when the token is not a newline token. -/
def get_length_of_newline_token (file_name : String) (tok : Tok) :
    Option (Int × Option Diagnostic) :=
  if tok.tokenType ≠ NEWLINE then
    none
  else
    let acc : Int × Bool × Bool :=
      tok.text.toList.foldl
        (fun (a : Int × Bool × Bool) c =>
          if c = ' ' then (a.1 + 1, true, a.2.2)
          else if c = '\t' then (a.1 + 8, a.2.1, true)
          else a)
        (0, false, false)
    let diag : Option Diagnostic :=
      if acc.2.1 && acc.2.2 then
        some { message := "Indentation contains tabs and spaces"
               range_start := (get_newline_indentation_range tok).1
               range_stop := (get_newline_indentation_range tok).2
               context := get_newline_indentation_text tok
               start_line := tok.line.toNat
               file_name := file_name
               severity := DiagnosticSeverity.Warning }
      else none
    some (acc.1, diag)

/-- The dedent-emitting `while` loop of `handle_newline_token`: while the
stack's top exceeds the new depth, pop it (emitting one DEDENT each time);
when the pop empties the stack, record the current line as option content.
Returns (number of DEDENT tokens emitted, remaining stack, updated
`last_seen_option_content`). -/
def dedent_loop (curLine : Int) (len : Int) :
    List Int → Option Int → Nat × List Int × Option Int
  | [], lsoc => (0, [], lsoc)
  | top :: rest, lsoc =>
    if len < top then
      let lsoc1 := if rest.isEmpty then some curLine else lsoc
      let r := dedent_loop curLine len rest lsoc1
      (r.1 + 1, r.2.1, r.2.2)
    else (0, top :: rest, lsoc)

/-- First block of `handle_newline_token`: if an option-content line is
recorded and the arriving token's type equals the last returned token's
type (the line is blank), synthesize the BLANK_LINE_FOLLOWING_OPTION marker
when the option content is directly above, and in either case clear the
recorded option-content line. -/
def blank_line_step (curLine : Int) (st : LexerState) (tok : Tok) : LexerState :=
  match st.lastSeenOptionContent with
  | none => st
  | some lastSeen =>
    if (match st.lastToken with
        | some last => decide (tok.tokenType = last.tokenType)
        | none => false) then
      { (if curLine - lastSeen = 1 then
           insert_token st "" BLANK_LINE_FOLLOWING_OPTION curLine
         else st) with
        lastSeenOptionContent := none }
    else st

/-- Second block of `handle_newline_token`: after a line containing a
shortcut arrow, push the new depth and synthesize an INDENT when the depth
grew; clear the shortcut flag and record the current line as option
content. -/
def shortcut_indent_step (curLine : Int) (len : Int) (st : LexerState) : LexerState :=
  if st.lineContainsShortcut then
    { (if len > st.lastIndent then
         insert_token { st with unbalancedIndents := len :: st.unbalancedIndents }
           "" INDENT curLine
       else st) with
      lineContainsShortcut := false, lastSeenOptionContent := some curLine }
  else st

/-- Third block of `handle_newline_token`: apply `dedent_loop` to the
state, enqueueing the emitted DEDENT tokens. -/
def dedent_step (curLine : Int) (len : Int) (st : LexerState) : LexerState :=
  let d := dedent_loop curLine len st.unbalancedIndents st.lastSeenOptionContent
  { st with
    pendingTokens :=
      st.pendingTokens ++
        List.replicate d.1 ({ tokenType := DEDENT, text := "", line := curLine } : Tok)
    unbalancedIndents := d.2.1
    lastSeenOptionContent := d.2.2 }

/-- Rust `handle_newline_token`: enqueue the newline; synthesize the
BLANK_LINE_FOLLOWING_OPTION marker when a blank line directly follows
recorded option content; measure the upcoming indentation; open an INDENT
after a shortcut line that got deeper; close DEDENTs while the stack top
exceeds the new depth; finally update the last seen depth. `curLine` is the
base lexer's current line (`self.base.get_line()`). `none` models a
propagated panic. -/
def handle_newline_token (file_name : String) (curLine : Int)
    (st : LexerState) (tok : Tok) : Option LexerState :=
  let st1 := { st with pendingTokens := st.pendingTokens ++ [tok] }
  let st2 := blank_line_step curLine st1 tok
  match get_length_of_newline_token file_name tok with
  | none => none
  | some lenDiag =>
    let len := lenDiag.1
    let st3 := { st2 with diagnostics := st2.diagnostics ++ lenDiag.2.toList }
    some { dedent_step curLine len (shortcut_indent_step curLine len st3) with lastIndent := len }

/-- Rust `handle_eof_token`: emit one DEDENT for every entry still on the stack,
in pop order, then enqueue the EOF token. -/
def handle_eof_token (curLine : Int) (st : LexerState) (tok : Tok) : LexerState :=
  { st with
    pendingTokens :=
      st.pendingTokens ++
        List.replicate st.unbalancedIndents.length
          { tokenType := DEDENT, text := "", line := curLine } ++ [tok]
    unbalancedIndents := [] }

/-- Rust `check_next_token`: classify one token pulled from the base lexer and
update the wrapper state; afterwards the processed token becomes
`last_token`. `none` models a propagated panic. -/
def check_next_token (file_name : String) (curLine : Int)
    (st : LexerState) (current : Tok) : Option LexerState :=
  (if current.tokenType = NEWLINE then
      handle_newline_token file_name curLine st current
    else if current.tokenType = TOKEN_EOF then
      some (handle_eof_token curLine st current)
    else if current.tokenType = SHORTCUT_ARROW then
      some { st with
              pendingTokens := st.pendingTokens ++ [current]
              lineContainsShortcut := true }
    else if current.tokenType = BODY_END then
      some { st with
              lineContainsShortcut := false
              lastIndent := 0
              unbalancedIndents := []
              lastSeenOptionContent := none
              pendingTokens := st.pendingTokens ++ [current] }
    else
      some { st with pendingTokens := st.pendingTokens ++ [current] }).map
    (fun s => { s with lastToken := some current })

/-- Run the wrapper over a list of (token, base-lexer line) pairs pulled
from the primitive lexer, threading the state. Dequeuing is not modelled:
`pendingTokens` accumulates the full output stream in emission order. -/
def run_lexer (file_name : String) :
    List (Tok × Int) → LexerState → Option LexerState
  | [], st => some st
  | p :: rest, st =>
    match check_next_token file_name p.2 st p.1 with
    | none => none
    | some st1 => run_lexer file_name rest st1

/-- Number of tokens of a given type in a token list. -/
def countType (t : Int) (ts : List Tok) : Nat :=
  (ts.filter (fun x => x.tokenType = t)).length

/-! ### The compilation pipeline (crates/compiler/src/compiler.rs) -/

/-- The type of a declared variable (`rusty_yarn_spinner_core::types`;
only `NumberType` is used by the embedded code). -/
inductive DeclarationType where
  | number
  | string
  | boolean
deriving DecidableEq, Repr

/-- Modelled from the spec: a `Declaration` record
`{name, type, default-value, description}` (the concrete struct lives in the
core crate, outside the embedded sources). The only default value the
pipeline synthesizes is the number zero, so defaults are modelled as `Int`. -/
structure Declaration where
  name : String
  decl_type : DeclarationType
  default_value : Int
  description : String
deriving DecidableEq, Repr

/-- Modelled from the spec:
`Library::generate_unique_visited_variable_for_node` is outside the embedded
sources; the spec requires only "a deterministically-generated unique name
derived from the node title", so it is modelled as an injective decoration
of the title. -/
def generate_unique_visited_variable_for_node (node : String) : String :=
  "$Yarn.Internal.Visiting." ++ node

/-- A string table entry value (`StringInfo`), keyed by a stable line id. -/
structure StringInfo where
  text : String
  node_name : String
deriving DecidableEq, Repr

/-- Modelled from the spec: one input file together with the outputs of the
external per-file passes on it. The primitive lexer, parser and the four
visitors (`parse_syntax_tree`, `LastLineBeforeOptionsVisitor`,
`StringTableGeneratorVisitor`, `DeclarationVisitor`, `NodeTrackingVisitor`)
are outside the embedded sources; since each is a deterministic function of
the file, the file is represented by its name plus those passes' outputs. -/
structure SourceFile where
  file_name : String
  /-- Diagnostics produced while lexing/parsing this file. -/
  parse_diagnostics : List Diagnostic
  /-- String table entries generated for this file, keyed by line id. -/
  string_entries : List (String × StringInfo)
  /-- Diagnostics of the string-table generator visitor. -/
  string_diagnostics : List Diagnostic
  /-- Diagnostics of the declaration visitor. -/
  decl_diagnostics : List Diagnostic
  /-- Explicit declarations extracted from this file. -/
  new_declarations : List Declaration
  /-- File-level hashtags of this file. -/
  file_tags : List String
  /-- Node titles whose body calls the visit-tracking built-in. -/
  tracking_nodes : List String
  /-- Node titles explicitly marked to skip tracking. -/
  ignoring_nodes : List String
deriving DecidableEq, Repr

/-- A compilation job: the ordered file list and the pre-seeded external
variable declarations (the library and compilation-type fields only
parameterize the external visitors and are not consumed by the embedded
pipeline code). -/
structure CompilationJob where
  files : List SourceFile
  variable_declarations : List Declaration
deriving DecidableEq, Repr

/-- The aggregate result of a compilation. The Rust hash maps
(`string_table`, `file_tags`) are modelled as association lists in insertion
order. -/
structure CompilationResult where
  diagnostics : List Diagnostic
  declarations : List Declaration
  string_table : List (String × StringInfo)
  file_tags : List (String × List String)
deriving DecidableEq, Repr

/-- Rust `HashMap::insert`: replace any existing binding of the key, else add one. -/
def map_insert {α : Type} [DecidableEq α] {β : Type} (k : α) (v : β)
    (m : List (α × β)) : List (α × β) :=
  if (m.filter (fun p => p.1 = k)).isEmpty then m ++ [(k, v)]
  else m.map (fun p => if p.1 = k then (k, v) else p)

/-- Rust `CompilationIntermediate`: the accumulator threaded through the four
pipeline steps. -/
structure CompilationIntermediate where
  job : CompilationJob
  result : CompilationResult
  known_variable_declarations : List Declaration
  derived_variable_declarations : List Declaration
  parsed_files : List SourceFile
  tracking_nodes : Finset String

/-- Rust `CompilationIntermediate::from_job`: everything defaults to empty. -/
def from_job (compilation_job : CompilationJob) : CompilationIntermediate :=
  { job := compilation_job
    result := { diagnostics := [], declarations := [], string_table := [], file_tags := [] }
    known_variable_declarations := []
    derived_variable_declarations := []
    parsed_files := []
    tracking_nodes := ∅ }

/-- The loop body of `register_strings`: parse one file (collecting parse
diagnostics), run the last-line tagger and the string table generator,
merge the string table and diagnostics, and retain the parsed file. -/
def register_strings_step (st : CompilationIntermediate) (file : SourceFile) :
    CompilationIntermediate :=
  { st with
    result :=
      { st.result with
        diagnostics :=
          st.result.diagnostics ++ file.parse_diagnostics ++ file.string_diagnostics
        string_table := st.result.string_table ++ file.string_entries }
    parsed_files := st.parsed_files ++ [file] }

/-- Rust `register_strings`: run the first pass over every job file. -/
def register_strings (state : CompilationIntermediate) : CompilationIntermediate :=
  state.job.files.foldl register_strings_step state

/-- The loop body of `get_declarations`: run the declaration visitor on one
retained parsed file and merge its diagnostics, new declarations and file
tags. -/
def get_declarations_step (st : CompilationIntermediate) (file : SourceFile) :
    CompilationIntermediate :=
  { st with
    result :=
      { st.result with
        diagnostics := st.result.diagnostics ++ file.decl_diagnostics
        declarations := st.result.declarations ++ file.new_declarations
        file_tags := map_insert file.file_name file.file_tags st.result.file_tags } }

/-- Rust `get_declarations`: run the second pass over every retained parsed file. -/
def get_declarations (state : CompilationIntermediate) : CompilationIntermediate :=
  state.parsed_files.foldl get_declarations_step state

/-- The loop body of `find_tracking_nodes`: extend the accumulated
(requested, opted-out) node-title sets with one file's visitor output. -/
def find_tracking_step (acc : Finset String × Finset String) (file : SourceFile) :
    Finset String × Finset String :=
  (acc.1 ∪ file.tracking_nodes.toFinset, acc.2 ∪ file.ignoring_nodes.toFinset)

/-- Rust `find_tracking_nodes`: accumulate, over all parsed files, the set of
node titles requesting tracking and the set opted out, then store their
set difference. -/
def find_tracking_nodes (state : CompilationIntermediate) : CompilationIntermediate :=
  let sets := state.parsed_files.foldl find_tracking_step (∅, ∅)
  { state with tracking_nodes := sets.1 \ sets.2 }

/-- The tracking declaration synthesized for one node title:
`Declaration::from_default_value(0.).with_name(generate_unique_visited_variable_for_node(node))
.with_type(NumberType).with_description(...)`. -/
def make_tracking_declaration (node : String) : Declaration :=
  { name := generate_unique_visited_variable_for_node node
    decl_type := DeclarationType.number
    default_value := 0
    description := "The generated variable for tracking visits of node " ++ node }

/-- Rust `add_tracking_declarations`: synthesize one tracking declaration per
tracked node and append them to both the known and the derived declaration
lists. The Rust code iterates a `HashSet<String>` whose iteration order is
unspecified; `order` names that iteration order explicitly. -/
def add_tracking_declarations (order : List String) (state : CompilationIntermediate) :
    CompilationIntermediate :=
  let tracking_declarations := order.map make_tracking_declaration
  { state with
    known_variable_declarations := state.known_variable_declarations ++ tracking_declarations
    derived_variable_declarations := state.derived_variable_declarations ++ tracking_declarations }

/-- The fixed ordered list of compiler steps folded by `compile`. -/
def compiler_steps (order : List String) :
    List (CompilationIntermediate → CompilationIntermediate) :=
  [register_strings, get_declarations, find_tracking_nodes, add_tracking_declarations order]

/-- Rust `compile` up to (and including) the final intermediate state. -/
def compile_state (order : List String) (compilation_job : CompilationJob) :
    CompilationIntermediate :=
  (compiler_steps order).foldl (fun state step => step state) (from_job compilation_job)

/-- Rust `compile`: fold the four steps over the initial intermediate state and
return its result. -/
def compile (order : List String) (compilation_job : CompilationJob) : CompilationResult :=
  (compile_state order compilation_job).result

/-- A valid iteration order of the tracked-node hash set: duplicate-free and
enumerating exactly the set's elements. -/
def valid_order (order : List String) (s : Finset String) : Prop :=
  order.Nodup ∧ order.toFinset = s

/-- The tracked-node set computed by the pipeline for a job (it is
independent of the hash-set iteration order, which only the fourth step
consumes). -/
def tracked_of (compilation_job : CompilationJob) : Finset String :=
  (find_tracking_nodes (get_declarations (register_strings (from_job compilation_job)))).tracking_nodes

/-- Stated from the spec, for comparison with `find_tracking_nodes`: the
union over all files of the nodes requesting tracking. -/
def requested_union (files : List SourceFile) : Finset String :=
  files.foldl (fun s file => s ∪ file.tracking_nodes.toFinset) ∅

/-- Stated from the spec, for comparison with `find_tracking_nodes`: the
union over all files of the nodes opted out of tracking. -/
def opted_out_union (files : List SourceFile) : Finset String :=
  files.foldl (fun s file => s ∪ file.ignoring_nodes.toFinset) ∅

/-- The token-count / stack-depth invariant of the wrapper: every synthesized
INDENT not yet matched by a synthesized DEDENT is an entry of the
indentation stack. -/
def lexer_balance (st : LexerState) : Prop :=
  countType INDENT st.pendingTokens =
    countType DEDENT st.pendingTokens + st.unbalancedIndents.length

/-- Number of space characters in a string. -/
def count_spaces (s : String) : Nat :=
  s.toList.countP (fun c => c = ' ')

/-- Number of tab characters in a string. -/
def count_tabs (s : String) : Nat :=
  s.toList.countP (fun c => c = '\t')

/-- A file whose only visitor output is a tracking request for node X. -/
def file_requesting_x : SourceFile :=
  { file_name := "a.yarn"
    parse_diagnostics := []
    string_entries := []
    string_diagnostics := []
    decl_diagnostics := []
    new_declarations := []
    file_tags := []
    tracking_nodes := ["X"]
    ignoring_nodes := [] }

/-- A file whose only visitor output is a tracking opt-out for node X. -/
def file_ignoring_x : SourceFile :=
  { file_name := "b.yarn"
    parse_diagnostics := []
    string_entries := []
    string_diagnostics := []
    decl_diagnostics := []
    new_declarations := []
    file_tags := []
    tracking_nodes := []
    ignoring_nodes := ["X"] }

/-- The job listing file A (request tracking for X) before file B (opt X
out). -/
def job_request_then_ignore : CompilationJob :=
  { files := [file_requesting_x, file_ignoring_x], variable_declarations := [] }

/-- The same two files in the opposite order. -/
def job_ignore_then_request : CompilationJob :=
  { files := [file_ignoring_x, file_requesting_x], variable_declarations := [] }

/-- A file whose only visitor output is a visit-tracking request for the
node titled "Start". -/
def file_tracking_start : SourceFile :=
  { file_name := "start.yarn"
    parse_diagnostics := []
    string_entries := []
    string_diagnostics := []
    decl_diagnostics := []
    new_declarations := []
    file_tags := []
    tracking_nodes := ["Start"]
    ignoring_nodes := [] }

/-- The single-file job whose node "Start" calls the visit-tracking
built-in. -/
def job_tracking_start : CompilationJob :=
  { files := [file_tracking_start], variable_declarations := [] }

/-! ### Helper lemmas about the lexer embedding -/

theorem countType_append (t : Int) (a b : List Tok) :
    countType t (a ++ b) = countType t a + countType t b := by
  simp [countType, List.filter_append]

theorem countType_singleton (t : Int) (x : Tok) :
    countType t [x] = if x.tokenType = t then 1 else 0 := by
  by_cases h : x.tokenType = t <;> simp [countType, List.filter_cons, h]

theorem countType_cons (t : Int) (x : Tok) (ts : List Tok) :
    countType t (x :: ts) = (if x.tokenType = t then 1 else 0) + countType t ts := by
  by_cases h : x.tokenType = t <;>
    simp [countType, List.filter_cons, h, Nat.add_comm]

theorem countType_replicate (t : Int) (n : Nat) (x : Tok) :
    countType t (List.replicate n x) = if x.tokenType = t then n else 0 := by
  induction n with
  | zero => simp [countType]
  | succ k ih =>
    rw [List.replicate_succ, countType_cons, ih]
    by_cases h : x.tokenType = t
    · simp [h, Nat.add_comm]
    · simp [h]

theorem dedent_loop_stack (curLine len : Int) (s : List Int) (o : Option Int) :
    (dedent_loop curLine len s o).2.1.length + (dedent_loop curLine len s o).1 = s.length := by
  induction s generalizing o with
  | nil => simp [dedent_loop]
  | cons top rest ih =>
    by_cases h : len < top
    · simp only [dedent_loop, if_pos h]
      rcases hr : dedent_loop curLine len rest (if rest.isEmpty then some curLine else o) with
        ⟨n, s2, o2⟩
      have h2 := ih (if rest.isEmpty then some curLine else o)
      rw [hr] at h2
      simp only [hr, List.length_cons]
      simp at h2
      omega
    · simp [dedent_loop, if_neg h]

theorem dedent_loop_lsoc (curLine len : Int) (s : List Int) (o : Option Int) :
    (dedent_loop curLine len s o).2.2 = o ∨ (dedent_loop curLine len s o).2.2 = some curLine := by
  induction s generalizing o with
  | nil => simp [dedent_loop]
  | cons top rest ih =>
    by_cases h : len < top
    · simp only [dedent_loop, if_pos h]
      rcases ih (if rest.isEmpty then some curLine else o) with h1 | h1
      · by_cases he : rest.isEmpty
        · right; simpa [he] using h1
        · left; simpa [he] using h1
      · right; exact h1
    · simp [dedent_loop, if_neg h]

theorem dedent_loop_empty (curLine len : Int) (o : Option Int) :
    dedent_loop curLine len [] o = (0, [], o) := rfl

theorem get_length_of_newline_isSome (file_name : String) (tok : Tok)
    (h : tok.tokenType = NEWLINE) :
    ∃ len d, get_length_of_newline_token file_name tok = some (len, d) := by
  simp only [get_length_of_newline_token, h, ne_eq, not_true_eq_false, if_false]
  exact ⟨_, _, rfl⟩

theorem get_length_of_newline_diag (file_name : String) (tok : Tok)
    (len : Int) (d : Option Diagnostic) (diag : Diagnostic)
    (h : get_length_of_newline_token file_name tok = some (len, d))
    (hd : d = some diag) :
    diag.severity = DiagnosticSeverity.Warning ∧ diag.start_line = tok.line.toNat := by
  by_cases ht : tok.tokenType = NEWLINE
  · simp only [get_length_of_newline_token, ht, ne_eq, not_true_eq_false, if_false] at h
    split at h
    · cases h
      cases hd
      exact ⟨rfl, rfl⟩
    · cases h
      cases hd
  · simp [get_length_of_newline_token, ht] at h

theorem countType_append_single (t : Int) (a : List Tok) (x : Tok) (h : x.tokenType ≠ t) :
    countType t (a ++ [x]) = countType t a := by
  simp [countType_append, countType_singleton, h]

theorem blank_line_step_effects (curLine : Int) (st : LexerState) (tok : Tok) :
    (blank_line_step curLine st tok).unbalancedIndents = st.unbalancedIndents ∧
    (blank_line_step curLine st tok).lineContainsShortcut = st.lineContainsShortcut ∧
    (blank_line_step curLine st tok).lastIndent = st.lastIndent ∧
    (blank_line_step curLine st tok).diagnostics = st.diagnostics ∧
    ∃ b : Bool,
      (blank_line_step curLine st tok).pendingTokens =
        st.pendingTokens ++
          (if b then
            [({ tokenType := BLANK_LINE_FOLLOWING_OPTION, text := "", line := curLine } : Tok)]
          else []) := by
  unfold blank_line_step insert_token
  split
  · exact ⟨rfl, rfl, rfl, rfl, false, by simp⟩
  · split
    · split
      · exact ⟨rfl, rfl, rfl, rfl, true, by simp⟩
      · exact ⟨rfl, rfl, rfl, rfl, false, by simp⟩
    · exact ⟨rfl, rfl, rfl, rfl, false, by simp⟩

theorem shortcut_indent_step_effects (curLine len : Int) (st : LexerState) :
    (shortcut_indent_step curLine len st).diagnostics = st.diagnostics ∧
    ∃ k : Nat,
      (shortcut_indent_step curLine len st).unbalancedIndents.length =
        st.unbalancedIndents.length + k ∧
      countType INDENT (shortcut_indent_step curLine len st).pendingTokens =
        countType INDENT st.pendingTokens + k ∧
      countType DEDENT (shortcut_indent_step curLine len st).pendingTokens =
        countType DEDENT st.pendingTokens ∧
      countType BLANK_LINE_FOLLOWING_OPTION (shortcut_indent_step curLine len st).pendingTokens =
        countType BLANK_LINE_FOLLOWING_OPTION st.pendingTokens := by
  unfold shortcut_indent_step insert_token
  split
  · split
    · refine ⟨rfl, 1, by simp, ?_, ?_, ?_⟩ <;>
        simp [countType_append, countType_singleton, INDENT, DEDENT, BLANK_LINE_FOLLOWING_OPTION]
    · exact ⟨rfl, 0, by simp, by simp, by simp, by simp⟩
  · exact ⟨rfl, 0, by simp, by simp, by simp, by simp⟩

theorem dedent_step_effects (curLine len : Int) (st : LexerState) :
    (dedent_step curLine len st).diagnostics = st.diagnostics ∧
    ∃ n : Nat,
      (dedent_step curLine len st).unbalancedIndents.length + n =
        st.unbalancedIndents.length ∧
      countType DEDENT (dedent_step curLine len st).pendingTokens =
        countType DEDENT st.pendingTokens + n ∧
      countType INDENT (dedent_step curLine len st).pendingTokens =
        countType INDENT st.pendingTokens ∧
      countType BLANK_LINE_FOLLOWING_OPTION (dedent_step curLine len st).pendingTokens =
        countType BLANK_LINE_FOLLOWING_OPTION st.pendingTokens := by
  refine ⟨rfl, (dedent_loop curLine len st.unbalancedIndents st.lastSeenOptionContent).1,
    ?_, ?_, ?_, ?_⟩
  · exact dedent_loop_stack curLine len st.unbalancedIndents st.lastSeenOptionContent
  · simp [dedent_step, countType_append, countType_replicate, DEDENT]
  · simp [dedent_step, countType_append, countType_replicate, INDENT, DEDENT]
  · simp [dedent_step, countType_append, countType_replicate, BLANK_LINE_FOLLOWING_OPTION, DEDENT]

theorem handle_newline_isSome (file_name : String) (curLine : Int)
    (st : LexerState) (tok : Tok) (h : tok.tokenType = NEWLINE) :
    ∃ st1, handle_newline_token file_name curLine st tok = some st1 := by
  obtain ⟨len, dg, hlen⟩ := get_length_of_newline_isSome file_name tok h
  simp only [handle_newline_token, hlen]
  exact ⟨_, rfl⟩

theorem blank_line_step_counts (curLine : Int) (st : LexerState) (tok : Tok) :
    countType INDENT (blank_line_step curLine st tok).pendingTokens =
      countType INDENT st.pendingTokens ∧
    countType DEDENT (blank_line_step curLine st tok).pendingTokens =
      countType DEDENT st.pendingTokens := by
  obtain ⟨-, -, -, -, b, hBp⟩ := blank_line_step_effects curLine st tok
  rcases b with _ | _
  · simp only [Bool.false_eq_true, if_false, List.append_nil] at hBp
    rw [hBp]
    exact ⟨rfl, rfl⟩
  · simp only [if_true] at hBp
    rw [hBp]
    constructor
    · exact countType_append_single INDENT _
        { tokenType := BLANK_LINE_FOLLOWING_OPTION, text := "", line := curLine }
        (by decide : BLANK_LINE_FOLLOWING_OPTION ≠ INDENT)
    · exact countType_append_single DEDENT _
        { tokenType := BLANK_LINE_FOLLOWING_OPTION, text := "", line := curLine }
        (by decide : BLANK_LINE_FOLLOWING_OPTION ≠ DEDENT)

theorem handle_newline_invariant (file_name : String) (curLine : Int)
    (st : LexerState) (tok : Tok) (st1 : LexerState) (h : tok.tokenType = NEWLINE)
    (hres : handle_newline_token file_name curLine st tok = some st1) :
    (lexer_balance st → lexer_balance st1) ∧
    (∃ ds, st1.diagnostics = st.diagnostics ++ ds ∧
      ∀ d ∈ ds, d.severity = DiagnosticSeverity.Warning) := by
  obtain ⟨len, dg, hlen⟩ := get_length_of_newline_isSome file_name tok h
  simp only [handle_newline_token, hlen, Option.some_inj] at hres
  have hIt : tok.tokenType ≠ INDENT := by rw [h]; decide
  have hDt : tok.tokenType ≠ DEDENT := by rw [h]; decide
  obtain ⟨hBi, hBd⟩ :=
    blank_line_step_counts curLine { st with pendingTokens := st.pendingTokens ++ [tok] } tok
  obtain ⟨hB5, -, -, hB3, -, -⟩ :=
    blank_line_step_effects curLine { st with pendingTokens := st.pendingTokens ++ [tok] } tok
  obtain ⟨hD0, k, hDk, hDi, hDd, -⟩ :=
    shortcut_indent_step_effects curLine len
      { blank_line_step curLine { st with pendingTokens := st.pendingTokens ++ [tok] } tok with
        diagnostics :=
          (blank_line_step curLine { st with pendingTokens := st.pendingTokens ++ [tok] }
            tok).diagnostics ++ dg.toList }
  obtain ⟨hE0, n, hEn, hEd, hEi, -⟩ :=
    dedent_step_effects curLine len
      (shortcut_indent_step curLine len
        { blank_line_step curLine { st with pendingTokens := st.pendingTokens ++ [tok] } tok with
          diagnostics :=
            (blank_line_step curLine { st with pendingTokens := st.pendingTokens ++ [tok] }
              tok).diagnostics ++ dg.toList })
  constructor
  · intro hbal
    simp only [lexer_balance] at hbal ⊢
    rw [← hres]
    dsimp only at hBi hBd hDk hDi hDd hEn hEd hEi ⊢
    rw [countType_append_single INDENT st.pendingTokens tok hIt] at hBi
    rw [countType_append_single DEDENT st.pendingTokens tok hDt] at hBd
    have hB5l : (blank_line_step curLine
        { st with pendingTokens := st.pendingTokens ++ [tok] } tok).unbalancedIndents.length =
        st.unbalancedIndents.length := by rw [hB5]
    omega
  · refine ⟨dg.toList, ?_, ?_⟩
    · rw [← hres]
      have hd1 : ({ st with pendingTokens := st.pendingTokens ++ [tok] } :
          LexerState).diagnostics = st.diagnostics := rfl
      simp only
      rw [hE0, hD0, hB3, hd1]
    · intro d hd
      rcases dg with _ | diag
      · simp at hd
      · simp at hd
        subst hd
        exact (get_length_of_newline_diag file_name tok len _ d hlen rfl).1

theorem check_next_token_isSome (file_name : String) (curLine : Int)
    (st : LexerState) (tok : Tok) :
    ∃ st1, check_next_token file_name curLine st tok = some st1 := by
  unfold check_next_token
  by_cases h : tok.tokenType = NEWLINE
  · rw [if_pos h]
    obtain ⟨s1, h1⟩ := handle_newline_isSome file_name curLine st tok h
    rw [h1]
    exact ⟨_, rfl⟩
  · rw [if_neg h]
    split_ifs <;> exact ⟨_, rfl⟩

theorem check_next_token_clears (file_name : String) (curLine : Int)
    (st : LexerState) (tok : Tok)
    (h : tok.tokenType = BODY_END ∨ tok.tokenType = TOKEN_EOF) :
    ∃ st1, check_next_token file_name curLine st tok = some st1 ∧
      st1.unbalancedIndents = [] := by
  rcases h with h | h
  · have hn : tok.tokenType ≠ NEWLINE := by rw [h]; decide
    have he : tok.tokenType ≠ TOKEN_EOF := by rw [h]; decide
    have hs : tok.tokenType ≠ SHORTCUT_ARROW := by rw [h]; decide
    unfold check_next_token
    rw [if_neg hn, if_neg he, if_neg hs, if_pos h]
    exact ⟨_, rfl, rfl⟩
  · have hn : tok.tokenType ≠ NEWLINE := by rw [h]; decide
    unfold check_next_token
    rw [if_neg hn, if_pos h]
    exact ⟨_, rfl, rfl⟩

theorem check_next_token_invariant (file_name : String) (curLine : Int)
    (st st1 : LexerState) (tok : Tok)
    (hb : tok.tokenType ≠ BODY_END) (hi : tok.tokenType ≠ INDENT)
    (hd : tok.tokenType ≠ DEDENT)
    (hres : check_next_token file_name curLine st tok = some st1)
    (hbal : lexer_balance st) :
    lexer_balance st1 ∧
    ∃ ds, st1.diagnostics = st.diagnostics ++ ds ∧
      ∀ d ∈ ds, d.severity = DiagnosticSeverity.Warning := by
  unfold check_next_token at hres
  by_cases h : tok.tokenType = NEWLINE
  · rw [if_pos h] at hres
    obtain ⟨s1, hs1⟩ := handle_newline_isSome file_name curLine st tok h
    rw [hs1] at hres
    simp only [Option.map_some', Option.some_inj] at hres
    obtain ⟨hbal1, ds, hds, hw⟩ := handle_newline_invariant file_name curLine st tok s1 h hs1
    subst hres
    exact ⟨hbal1 hbal, ds, hds, hw⟩
  · rw [if_neg h] at hres
    by_cases h2 : tok.tokenType = TOKEN_EOF
    · rw [if_pos h2] at hres
      simp only [Option.map_some', Option.some_inj] at hres
      subst hres
      refine ⟨?_, [], by simp [handle_eof_token], by simp⟩
      show countType INDENT (handle_eof_token curLine st tok).pendingTokens =
        countType DEDENT (handle_eof_token curLine st tok).pendingTokens +
          (handle_eof_token curLine st tok).unbalancedIndents.length
      have hddI : (({ tokenType := DEDENT, text := "", line := curLine } : Tok)).tokenType
          ≠ INDENT := (by decide : DEDENT ≠ INDENT)
      simp only [handle_eof_token, ← List.append_assoc, countType_append,
        countType_replicate, countType_singleton, hi, hd, if_neg hddI, if_false,
        List.length_nil]
      simp only [lexer_balance] at hbal
      simp [hbal]
    · rw [if_neg h2] at hres
      by_cases h3 : tok.tokenType = SHORTCUT_ARROW
      · rw [if_pos h3] at hres
        simp only [Option.map_some', Option.some_inj] at hres
        subst hres
        refine ⟨?_, [], by simp, by simp⟩
        show countType INDENT (st.pendingTokens ++ [tok]) =
          countType DEDENT (st.pendingTokens ++ [tok]) + st.unbalancedIndents.length
        rw [countType_append_single _ _ _ hi, countType_append_single _ _ _ hd]
        exact hbal
      · rw [if_neg h3, if_neg hb] at hres
        simp only [Option.map_some', Option.some_inj] at hres
        subst hres
        refine ⟨?_, [], by simp, by simp⟩
        show countType INDENT (st.pendingTokens ++ [tok]) =
          countType DEDENT (st.pendingTokens ++ [tok]) + st.unbalancedIndents.length
        rw [countType_append_single _ _ _ hi, countType_append_single _ _ _ hd]
        exact hbal

theorem run_lexer_isSome (file_name : String) (inputs : List (Tok × Int)) :
    ∀ st : LexerState, ∃ st1, run_lexer file_name inputs st = some st1 := by
  induction inputs with
  | nil => exact fun st => ⟨st, rfl⟩
  | cons p rest ih =>
    intro st
    obtain ⟨s1, h1⟩ := check_next_token_isSome file_name p.2 st p.1
    obtain ⟨s2, h2⟩ := ih s1
    exact ⟨s2, by simp only [run_lexer, h1, h2]⟩

theorem run_lexer_invariant (file_name : String) (inputs : List (Tok × Int)) :
    ∀ st st1 : LexerState,
      (∀ p ∈ inputs, p.1.tokenType ≠ BODY_END ∧ p.1.tokenType ≠ INDENT ∧
        p.1.tokenType ≠ DEDENT) →
      run_lexer file_name inputs st = some st1 →
      lexer_balance st →
      (∀ d ∈ st.diagnostics, d.severity = DiagnosticSeverity.Warning) →
      lexer_balance st1 ∧
        ∀ d ∈ st1.diagnostics, d.severity = DiagnosticSeverity.Warning := by
  induction inputs with
  | nil =>
    intro st st1 _ hrun hbal hdiag
    simp only [run_lexer, Option.some_inj] at hrun
    subst hrun
    exact ⟨hbal, hdiag⟩
  | cons p rest ih =>
    intro st st1 hno hrun hbal hdiag
    obtain ⟨s1, h1⟩ := check_next_token_isSome file_name p.2 st p.1
    rw [run_lexer, h1] at hrun
    obtain ⟨hp1, hp2, hp3⟩ := hno p (by simp)
    obtain ⟨hbal1, ds, hds, hw⟩ :=
      check_next_token_invariant file_name p.2 st s1 p.1 hp1 hp2 hp3 h1 hbal
    refine ih s1 st1 (fun q hq => hno q (by simp [hq])) hrun hbal1 ?_
    intro d hdm
    rw [hds] at hdm
    rcases List.mem_append.mp hdm with hmem | hmem
    · exact hdiag d hmem
    · exact hw d hmem

theorem run_lexer_append (file_name : String) (a b : List (Tok × Int)) :
    ∀ st : LexerState,
      run_lexer file_name (a ++ b) st =
        (run_lexer file_name a st).bind (run_lexer file_name b) := by
  induction a with
  | nil =>
    intro st
    simp [run_lexer]
  | cons p rest ih =>
    intro st
    rw [List.cons_append, run_lexer, run_lexer]
    cases check_next_token file_name p.2 st p.1 with
    | none => simp
    | some s1 => simpa using ih s1


/-! ### Helper lemmas about the pipeline embedding -/

theorem register_strings_foldl (files : List SourceFile) :
    ∀ st : CompilationIntermediate,
      (files.foldl register_strings_step st).job = st.job ∧
      (files.foldl register_strings_step st).known_variable_declarations =
        st.known_variable_declarations ∧
      (files.foldl register_strings_step st).derived_variable_declarations =
        st.derived_variable_declarations ∧
      (files.foldl register_strings_step st).tracking_nodes = st.tracking_nodes ∧
      (files.foldl register_strings_step st).parsed_files = st.parsed_files ++ files ∧
      (files.foldl register_strings_step st).result.declarations =
        st.result.declarations := by
  induction files with
  | nil =>
    intro st
    simp
  | cons f rest ih =>
    intro st
    obtain ⟨h1, h2, h3, h4, h5, h6⟩ := ih (register_strings_step st f)
    rw [List.foldl_cons]
    exact ⟨h1, h2, h3, h4, by rw [h5]; simp [register_strings_step], h6⟩

theorem get_declarations_foldl (files : List SourceFile) :
    ∀ st : CompilationIntermediate,
      (files.foldl get_declarations_step st).job = st.job ∧
      (files.foldl get_declarations_step st).known_variable_declarations =
        st.known_variable_declarations ∧
      (files.foldl get_declarations_step st).derived_variable_declarations =
        st.derived_variable_declarations ∧
      (files.foldl get_declarations_step st).tracking_nodes = st.tracking_nodes ∧
      (files.foldl get_declarations_step st).parsed_files = st.parsed_files ∧
      (files.foldl get_declarations_step st).result.declarations =
        st.result.declarations ++ files.flatMap SourceFile.new_declarations := by
  induction files with
  | nil =>
    intro st
    simp
  | cons f rest ih =>
    intro st
    obtain ⟨h1, h2, h3, h4, h5, h6⟩ := ih (get_declarations_step st f)
    rw [List.foldl_cons]
    refine ⟨h1, h2, h3, h4, h5, ?_⟩
    rw [h6]
    simp [get_declarations_step]

theorem find_tracking_foldl (files : List SourceFile) :
    ∀ p : Finset String × Finset String,
      files.foldl find_tracking_step p =
        (files.foldl (fun s file => s ∪ file.tracking_nodes.toFinset) p.1,
         files.foldl (fun s file => s ∪ file.ignoring_nodes.toFinset) p.2) := by
  induction files with
  | nil =>
    intro p
    simp
  | cons f rest ih =>
    intro p
    rw [List.foldl_cons, List.foldl_cons, List.foldl_cons, ih]
    rfl

theorem foldl_union_mem (g : SourceFile → List String) (files : List SourceFile) :
    ∀ (a : Finset String) (x : String),
      (x ∈ files.foldl (fun s file => s ∪ (g file).toFinset) a) ↔
        x ∈ a ∨ ∃ file ∈ files, x ∈ g file := by
  induction files with
  | nil =>
    intro a x
    simp
  | cons f rest ih =>
    intro a x
    rw [List.foldl_cons, ih]
    simp only [Finset.mem_union, List.mem_toFinset, List.mem_cons]
    constructor
    · rintro ((hx | hx) | ⟨file, hf, hx⟩)
      · exact Or.inl hx
      · exact Or.inr ⟨f, Or.inl rfl, hx⟩
      · exact Or.inr ⟨file, Or.inr hf, hx⟩
    · rintro (hx | ⟨file, (rfl | hf), hx⟩)
      · exact Or.inl (Or.inl hx)
      · exact Or.inl (Or.inr hx)
      · exact Or.inr ⟨file, hf, hx⟩

theorem foldl_union_perm (g : SourceFile → List String) (l1 l2 : List SourceFile)
    (h : l1.Perm l2) :
    l1.foldl (fun s file => s ∪ (g file).toFinset) ∅ =
      l2.foldl (fun s file => s ∪ (g file).toFinset) ∅ := by
  ext x
  rw [foldl_union_mem g l1, foldl_union_mem g l2]
  simp only [Finset.not_mem_empty, false_or]
  constructor
  · rintro ⟨f, hf, hx⟩
    exact ⟨f, h.mem_iff.mp hf, hx⟩
  · rintro ⟨f, hf, hx⟩
    exact ⟨f, h.mem_iff.mpr hf, hx⟩

theorem compile_state_eq (order : List String) (compilation_job : CompilationJob) :
    compile_state order compilation_job =
      add_tracking_declarations order
        (find_tracking_nodes
          (get_declarations (register_strings (from_job compilation_job)))) := rfl

theorem compile_state_tracking (order : List String) (compilation_job : CompilationJob) :
    (compile_state order compilation_job).tracking_nodes = tracked_of compilation_job := rfl

theorem compile_result_eq (order : List String) (compilation_job : CompilationJob) :
    compile order compilation_job =
      (find_tracking_nodes
        (get_declarations (register_strings (from_job compilation_job)))).result := rfl

theorem tracked_of_eq (compilation_job : CompilationJob) :
    tracked_of compilation_job =
      requested_union compilation_job.files \ opted_out_union compilation_job.files := by
  obtain ⟨hr1, -, -, -, hr5, -⟩ :=
    register_strings_foldl compilation_job.files (from_job compilation_job)
  obtain ⟨-, -, -, -, hg5, -⟩ :=
    get_declarations_foldl
      (register_strings (from_job compilation_job)).parsed_files
      (register_strings (from_job compilation_job))
  have hparsed :
      (get_declarations (register_strings (from_job compilation_job))).parsed_files =
        compilation_job.files := by
    rw [show (get_declarations (register_strings (from_job compilation_job))).parsed_files =
          (register_strings (from_job compilation_job)).parsed_files from hg5]
    rw [show (register_strings (from_job compilation_job)).parsed_files =
          (from_job compilation_job).parsed_files ++ compilation_job.files from hr5]
    rfl
  show (find_tracking_nodes
      (get_declarations (register_strings (from_job compilation_job)))).tracking_nodes = _
  unfold find_tracking_nodes
  rw [hparsed, find_tracking_foldl]
  rfl

theorem nodup_toFinset_singleton (l : List String) (a : String)
    (h1 : l.Nodup) (h2 : l.toFinset = {a}) : l = [a] := by
  cases l with
  | nil =>
    exfalso
    have : a ∈ ([] : List String).toFinset := by
      rw [h2]
      exact Finset.mem_singleton_self a
    simp at this
  | cons x xs =>
    have hx : x ∈ ({a} : Finset String) := by
      rw [← h2]
      simp
    rw [Finset.mem_singleton] at hx
    subst hx
    cases xs with
    | nil => rfl
    | cons y ys =>
      exfalso
      have hy : y ∈ ({x} : Finset String) := by
        rw [← h2]
        simp
      rw [Finset.mem_singleton] at hy
      subst hy
      rw [List.nodup_cons] at h1
      exact h1.1 (by simp)


/-! ### Claim theorems -/

/-- C3: for every input token stream, the wrapper's stack of unbalanced
indentation depths is empty immediately after it processes a node-body-end
token and immediately after it processes the end-of-input token; no
indentation state survives a node boundary or end-of-file. -/
theorem claim_c3 (file_name : String) (curLine : Int) (st : LexerState) (tok : Tok)
    (h : tok.tokenType = BODY_END ∨ tok.tokenType = TOKEN_EOF) :
    ∃ st1, check_next_token file_name curLine st tok = some st1 ∧
      st1.unbalancedIndents = [] :=
  check_next_token_clears file_name curLine st tok h

/-- Witness for C3: a node-body-end token processed on a state with a
non-empty indentation stack leaves the stack empty. -/
theorem claim_c3_witness :
    (({ tokenType := BODY_END, text := "===", line := 3 } : Tok).tokenType = BODY_END ∨
      ({ tokenType := BODY_END, text := "===", line := 3 } : Tok).tokenType = TOKEN_EOF) ∧
    ∃ st1, check_next_token "test.yarn" 3
        { initial_state with unbalancedIndents := [2, 8] }
        { tokenType := BODY_END, text := "===", line := 3 } = some st1 ∧
      st1.unbalancedIndents = [] :=
  ⟨Or.inl rfl, claim_c3 "test.yarn" 3
    { initial_state with unbalancedIndents := [2, 8] }
    { tokenType := BODY_END, text := "===", line := 3 } (Or.inl rfl)⟩

/-- C9: computing the indentation length of a non-newline token panics
(modelled as `none`); and under the precondition enforced at its single call
site — `check_next_token` only calls it on NEWLINE tokens — the fatal branch
is unreachable, so processing any token never panics. -/
theorem claim_c9 :
    (∀ (file_name : String) (tok : Tok), tok.tokenType ≠ NEWLINE →
      get_length_of_newline_token file_name tok = none) ∧
    (∀ (file_name : String) (curLine : Int) (st : LexerState) (tok : Tok),
      (check_next_token file_name curLine st tok).isSome) := by
  constructor
  · intro f tok h
    simp [get_length_of_newline_token, h]
  · intro f c st tok
    obtain ⟨st1, h1⟩ := check_next_token_isSome f c st tok
    rw [h1]
    rfl

/-- Witness for C9: the indentation-length computation on a body-end token
is the fatal branch, while processing any concrete token succeeds. -/
theorem claim_c9_witness :
    get_length_of_newline_token "test.yarn"
        { tokenType := BODY_END, text := "===", line := 1 } = none ∧
    (check_next_token "test.yarn" 1 initial_state
        { tokenType := NEWLINE, text := "\n", line := 1 }).isSome :=
  ⟨claim_c9.1 "test.yarn" { tokenType := BODY_END, text := "===", line := 1 } (by decide),
    claim_c9.2 "test.yarn" 1 initial_state { tokenType := NEWLINE, text := "\n", line := 1 }⟩


theorem indent_scan_foldl (l : List Char) :
    ∀ (a : Int) (sb tb : Bool),
      l.foldl
        (fun (x : Int × Bool × Bool) c =>
          if c = ' ' then (x.1 + 1, true, x.2.2)
          else if c = '\t' then (x.1 + 8, x.2.1, true)
          else x)
        (a, sb, tb) =
      (a + (l.countP (fun c => c = ' ') : Int) + 8 * (l.countP (fun c => c = '\t') : Int),
       sb || l.any (fun c => c = ' '), tb || l.any (fun c => c = '\t')) := by
  induction l with
  | nil =>
    intro a sb tb
    simp
  | cons c rest ih =>
    intro a sb tb
    rw [List.foldl_cons]
    by_cases hs : c = ' '
    · subst hs
      rw [if_pos rfl, ih]
      have h1 : ((' ' : Char) = ' ') = True := by simp
      have h2 : ((' ' : Char) = '\t') = False := by simp
      simp [List.countP_cons, List.any_cons, Prod.mk.injEq, h1, h2]
      try push_cast
      try ring
      try omega
    · by_cases ht : c = '\t'
      · subst ht
        rw [if_neg hs, if_pos rfl, ih]
        have h1 : (('\t' : Char) = ' ') = False := by simp
        have h2 : (('\t' : Char) = '\t') = True := by simp
        simp [List.countP_cons, List.any_cons, Prod.mk.injEq, h1, h2]
        try push_cast
        try ring
        try omega
      · rw [if_neg hs, if_neg ht, ih]
        have h1 : (c = ' ') = False := by simp [hs]
        have h2 : (c = '\t') = False := by simp [ht]
        simp [List.countP_cons, List.any_cons, Prod.mk.injEq, h1, h2]
        try push_cast
        try ring
        try omega

/-- C4: the measured indentation length of a newline token counts each space
as 1 and each tab as 8; when the indentation mixes at least one tab with at
least one space, exactly one Warning-severity diagnostic is emitted for that
line (and none otherwise), regardless of how many tabs and spaces occur. -/
theorem claim_c4 (file_name : String) (tok : Tok) (h : tok.tokenType = NEWLINE) :
    ∃ d, get_length_of_newline_token file_name tok =
        some ((count_spaces tok.text : Int) + 8 * (count_tabs tok.text : Int), d) ∧
      (d.isSome ↔ 0 < count_spaces tok.text ∧ 0 < count_tabs tok.text) ∧
      ∀ diag, d = some diag →
        diag.severity = DiagnosticSeverity.Warning ∧
        diag.start_line = tok.line.toNat ∧
        diag.message = "Indentation contains tabs and spaces" := by
  have hspace : (0 < count_spaces tok.text) ↔ tok.text.toList.any (fun c => c = ' ') := by
    simp [count_spaces, List.countP_pos_iff, List.any_eq_true]
  have htab : (0 < count_tabs tok.text) ↔ tok.text.toList.any (fun c => c = '\t') := by
    simp [count_tabs, List.countP_pos_iff, List.any_eq_true]
  simp only [get_length_of_newline_token, h, ne_eq, not_true_eq_false, if_false]
  rw [indent_scan_foldl]
  simp only [Bool.false_or, zero_add]
  refine ⟨_, rfl, ?_, ?_⟩
  · rw [hspace, htab]
    by_cases ha : tok.text.toList.any (fun c => c = ' ')
    · by_cases hb : tok.text.toList.any (fun c => c = '\t')
      · simp [ha, hb]
      · simp [ha, hb]
    · simp [ha]
  · intro diag hdiag
    split at hdiag
    · cases hdiag
      exact ⟨rfl, rfl, rfl⟩
    · cases hdiag

/-- Witness for C4: one leading tab measures 8, one leading space measures
1, and tab-then-space measures 9 with a mixed-indentation warning. -/
theorem claim_c4_witness :
    (∃ d, get_length_of_newline_token "test.yarn"
        { tokenType := NEWLINE, text := "\n\t", line := 4 } =
        some ((count_spaces "\n\t" : Int) + 8 * (count_tabs "\n\t" : Int), d) ∧
      (d.isSome ↔ 0 < count_spaces "\n\t" ∧ 0 < count_tabs "\n\t") ∧
      ∀ diag, d = some diag →
        diag.severity = DiagnosticSeverity.Warning ∧
        diag.start_line = (4 : Int).toNat ∧
        diag.message = "Indentation contains tabs and spaces") ∧
    (count_spaces "\n\t" : Int) + 8 * (count_tabs "\n\t" : Int) = 8 ∧
    (count_spaces "\n " : Int) + 8 * (count_tabs "\n " : Int) = 1 ∧
    (count_spaces "\n\t " : Int) + 8 * (count_tabs "\n\t " : Int) = 9 :=
  ⟨claim_c4 "test.yarn" { tokenType := NEWLINE, text := "\n\t", line := 4 } rfl,
    by decide, by decide, by decide⟩


/-- C5 (amended): when an option-content line is recorded, the newline
token's type equals the previously returned token's type, and the current
source line is one past the recorded line, the wrapper synthesizes exactly
one empty-text BLANK_LINE_FOLLOWING_OPTION token and clears the recorded
option-content line; provided additionally that no shortcut is pending and
the indentation stack is empty, the cleared state survives the call, and an
immediately following second blank line synthesizes no further marker.
(Without the two extra conditions the dedent loop can re-record the current
line as option content in the same call, and a second consecutive blank
line then synthesizes a further marker; see the counterexample.) -/
theorem claim_c5 (file_name : String) (curLine : Int) (st : LexerState) (tok lt : Tok)
    (l : Int)
    (hlsoc : st.lastSeenOptionContent = some l)
    (hlast : st.lastToken = some lt)
    (hteq : tok.tokenType = lt.tokenType)
    (htype : tok.tokenType = NEWLINE)
    (hline : curLine - l = 1)
    (hflag : st.lineContainsShortcut = false)
    (hstack : st.unbalancedIndents = []) :
    ∃ st1, check_next_token file_name curLine st tok = some st1 ∧
      st1.pendingTokens =
        st.pendingTokens ++ [tok] ++
          [({ tokenType := BLANK_LINE_FOLLOWING_OPTION, text := "", line := curLine } : Tok)] ∧
      st1.lastSeenOptionContent = none ∧
      st1.lineContainsShortcut = false ∧
      st1.unbalancedIndents = [] ∧
      ∀ (tok2 : Tok) (curLine2 : Int), tok2.tokenType = NEWLINE →
        ∃ st2, check_next_token file_name curLine2 st1 tok2 = some st2 ∧
          countType BLANK_LINE_FOLLOWING_OPTION st2.pendingTokens =
            countType BLANK_LINE_FOLLOWING_OPTION st1.pendingTokens := by
  obtain ⟨len, dg, hlen⟩ := get_length_of_newline_isSome file_name tok htype
  have hdec : decide (tok.tokenType = lt.tokenType) = true := by
    rw [hteq]
    simp
  unfold check_next_token
  rw [if_pos htype]
  unfold handle_newline_token
  rw [hlen]
  simp only [blank_line_step, shortcut_indent_step, dedent_step, insert_token,
    hlsoc, hlast, hdec, hline, hflag, hstack, if_true, if_pos rfl, dedent_loop,
    Bool.false_eq_true, if_false, List.replicate, List.append_nil, Option.map_some']
  refine ⟨_, rfl, by simp, rfl, rfl, rfl, ?_⟩
  intro tok2 curLine2 h2type
  obtain ⟨len2, dg2, hlen2⟩ := get_length_of_newline_isSome file_name tok2 h2type
  rw [if_pos h2type, hlen2]
  simp only [Bool.false_eq_true, if_false, dedent_loop, List.replicate,
    List.append_nil, Option.map_some']
  refine ⟨_, rfl, ?_⟩
  have h2bl : tok2.tokenType ≠ BLANK_LINE_FOLLOWING_OPTION := by
    rw [h2type]
    decide
  have h1bl : tok.tokenType ≠ BLANK_LINE_FOLLOWING_OPTION := by
    rw [htype]
    decide
  simp [countType_append, countType_cons, countType_singleton, countType, h2bl, h1bl]


theorem shortcut_indent_step_lsoc (curLine len : Int) (st : LexerState) :
    (shortcut_indent_step curLine len st).lastSeenOptionContent =
      if st.lineContainsShortcut then some curLine else st.lastSeenOptionContent := by
  by_cases h : st.lineContainsShortcut
  · simp only [shortcut_indent_step, insert_token, h, if_true]
  · simp only [shortcut_indent_step, h, Bool.false_eq_true, if_false]

theorem shortcut_indent_step_of_not_flag (curLine len : Int) (st : LexerState)
    (h : st.lineContainsShortcut = false) : shortcut_indent_step curLine len st = st := by
  simp [shortcut_indent_step, h]

theorem dedent_step_lsoc (curLine len : Int) (st : LexerState) :
    (dedent_step curLine len st).lastSeenOptionContent = st.lastSeenOptionContent ∨
    (dedent_step curLine len st).lastSeenOptionContent = some curLine := by
  simpa [dedent_step] using
    dedent_loop_lsoc curLine len st.unbalancedIndents st.lastSeenOptionContent

theorem dedent_step_of_empty (curLine len : Int) (st : LexerState)
    (h : st.unbalancedIndents = []) : dedent_step curLine len st = st := by
  cases st with
  | mk a b c d e f g =>
    simp only at h
    subst h
    simp [dedent_step, dedent_loop]

/-- C10: when an option-content line is recorded and a newline token arrives
whose type equals the previously returned token's type but the current
source line is not one past the recorded line, no
BLANK_LINE_FOLLOWING_OPTION marker is synthesized, yet the recorded
option-content line is still discarded: afterwards either nothing is
recorded, or (through the shortcut/dedent handling in the same call) the
current line has been freshly recorded; with no pending shortcut and an
empty indentation stack, nothing is recorded. -/
theorem claim_c10 (file_name : String) (curLine : Int) (st : LexerState) (tok lt : Tok)
    (l : Int)
    (hlsoc : st.lastSeenOptionContent = some l)
    (hlast : st.lastToken = some lt)
    (hteq : tok.tokenType = lt.tokenType)
    (htype : tok.tokenType = NEWLINE)
    (hline : curLine - l ≠ 1) :
    ∃ st1, check_next_token file_name curLine st tok = some st1 ∧
      countType BLANK_LINE_FOLLOWING_OPTION st1.pendingTokens =
        countType BLANK_LINE_FOLLOWING_OPTION st.pendingTokens ∧
      (st1.lastSeenOptionContent = none ∨ st1.lastSeenOptionContent = some curLine) ∧
      (st.lineContainsShortcut = false → st.unbalancedIndents = [] →
        st1.lastSeenOptionContent = none) := by
  obtain ⟨len, dg, hlen⟩ := get_length_of_newline_isSome file_name tok htype
  have hdec : decide (tok.tokenType = lt.tokenType) = true := by
    rw [hteq]
    simp
  unfold check_next_token
  rw [if_pos htype]
  unfold handle_newline_token
  rw [hlen]
  simp only [blank_line_step, insert_token, hlsoc, hlast, hdec, if_true,
    if_neg hline, Option.map_some']
  refine ⟨_, rfl, ?_, ?_, ?_⟩
  · obtain ⟨-, k, -, -, -, hDb⟩ :=
      shortcut_indent_step_effects curLine len
        { lastToken := some lt
          pendingTokens := st.pendingTokens ++ [tok]
          lineContainsShortcut := st.lineContainsShortcut
          lastIndent := st.lastIndent
          unbalancedIndents := st.unbalancedIndents
          lastSeenOptionContent := none
          diagnostics := st.diagnostics ++ dg.toList }
    obtain ⟨-, n, -, -, -, hEb⟩ :=
      dedent_step_effects curLine len
        (shortcut_indent_step curLine len
          { lastToken := some lt
            pendingTokens := st.pendingTokens ++ [tok]
            lineContainsShortcut := st.lineContainsShortcut
            lastIndent := st.lastIndent
            unbalancedIndents := st.unbalancedIndents
            lastSeenOptionContent := none
            diagnostics := st.diagnostics ++ dg.toList })
    have h1bl : tok.tokenType ≠ BLANK_LINE_FOLLOWING_OPTION := by
      rw [htype]
      decide
    dsimp only at hDb hEb ⊢
    rw [hEb, hDb, countType_append_single _ _ _ h1bl]
  · have hd := dedent_step_lsoc curLine len
      (shortcut_indent_step curLine len
        { lastToken := some lt
          pendingTokens := st.pendingTokens ++ [tok]
          lineContainsShortcut := st.lineContainsShortcut
          lastIndent := st.lastIndent
          unbalancedIndents := st.unbalancedIndents
          lastSeenOptionContent := none
          diagnostics := st.diagnostics ++ dg.toList })
    have hsc := shortcut_indent_step_lsoc curLine len
      { lastToken := some lt
        pendingTokens := st.pendingTokens ++ [tok]
        lineContainsShortcut := st.lineContainsShortcut
        lastIndent := st.lastIndent
        unbalancedIndents := st.unbalancedIndents
        lastSeenOptionContent := none
        diagnostics := st.diagnostics ++ dg.toList }
    dsimp only at hd hsc ⊢
    rcases hd with hd | hd
    · rw [hd, hsc]
      split
      · exact Or.inr rfl
      · exact Or.inl rfl
    · exact Or.inr hd
  · intro hflag hstack
    have hsc := shortcut_indent_step_of_not_flag curLine len
      { lastToken := some lt
        pendingTokens := st.pendingTokens ++ [tok]
        lineContainsShortcut := st.lineContainsShortcut
        lastIndent := st.lastIndent
        unbalancedIndents := st.unbalancedIndents
        lastSeenOptionContent := none
        diagnostics := st.diagnostics ++ dg.toList }
      (by dsimp only; exact hflag)
    dsimp only
    rw [hsc]
    rw [dedent_step_of_empty curLine len _ (by dsimp only; exact hstack)]

/-- Witness for C10: a blank newline two lines below the recorded
option-content line synthesizes no marker but still clears the record. -/
theorem claim_c10_witness :
    ∃ st1, check_next_token "test.yarn" 4
        { initial_state with
          lastToken := some { tokenType := NEWLINE, text := "\n", line := 2 }
          lastSeenOptionContent := some 2 }
        { tokenType := NEWLINE, text := "\n", line := 3 } = some st1 ∧
      countType BLANK_LINE_FOLLOWING_OPTION st1.pendingTokens =
        countType BLANK_LINE_FOLLOWING_OPTION
          ({ initial_state with
            lastToken := some { tokenType := NEWLINE, text := "\n", line := 2 }
            lastSeenOptionContent := some 2 } : LexerState).pendingTokens ∧
      (st1.lastSeenOptionContent = none ∨ st1.lastSeenOptionContent = some 4) ∧
      (({ initial_state with
            lastToken := some { tokenType := NEWLINE, text := "\n", line := 2 }
            lastSeenOptionContent := some 2 } : LexerState).lineContainsShortcut = false →
        ({ initial_state with
            lastToken := some { tokenType := NEWLINE, text := "\n", line := 2 }
            lastSeenOptionContent := some 2 } : LexerState).unbalancedIndents = [] →
        st1.lastSeenOptionContent = none) :=
  claim_c10 "test.yarn" 4
    { initial_state with
      lastToken := some { tokenType := NEWLINE, text := "\n", line := 2 }
      lastSeenOptionContent := some 2 }
    { tokenType := NEWLINE, text := "\n", line := 3 }
    { tokenType := NEWLINE, text := "\n", line := 2 } 2 rfl rfl rfl rfl (by decide)


/-- Counterexample for C5 as stated: in the token stream of the source text
consisting of a shortcut arrow line and two blank lines, the first blank
line synthesizes a BLANK_LINE_FOLLOWING_OPTION marker and "clears" the
recorded option-content line — but the dedent loop of the same call
re-records the current line, so the immediately following second blank line
synthesizes a further marker (two markers in total), contradicting "an
immediately following second blank line synthesizes no further marker". -/
theorem claim_c5_counterexample :
    (Option.map
        (fun s => (countType BLANK_LINE_FOLLOWING_OPTION s.pendingTokens,
          s.lastSeenOptionContent))
        (run_lexer "test.yarn"
          [({ tokenType := SHORTCUT_ARROW, text := "->", line := 1 }, 1),
           ({ tokenType := NEWLINE, text := "\n  ", line := 1 }, 2),
           ({ tokenType := NEWLINE, text := "\n", line := 2 }, 3)]
          initial_state) =
      some (1, some 3)) ∧
    (Option.map (fun s => countType BLANK_LINE_FOLLOWING_OPTION s.pendingTokens)
        (run_lexer "test.yarn"
          [({ tokenType := SHORTCUT_ARROW, text := "->", line := 1 }, 1),
           ({ tokenType := NEWLINE, text := "\n  ", line := 1 }, 2),
           ({ tokenType := NEWLINE, text := "\n", line := 2 }, 3),
           ({ tokenType := NEWLINE, text := "\n", line := 3 }, 4)]
          initial_state) =
      some 2) := by
  constructor
  · decide
  · decide

/-- Witness for C5 (amended): a blank newline directly below the recorded
option-content line, with no pending shortcut and an empty stack,
synthesizes exactly one empty-text marker and clears the record. -/
theorem claim_c5_witness :
    ∃ st1, check_next_token "test.yarn" 3
        { initial_state with
          lastToken := some { tokenType := NEWLINE, text := "\n  ", line := 1 }
          lastSeenOptionContent := some 2 }
        { tokenType := NEWLINE, text := "\n", line := 2 } = some st1 ∧
      st1.pendingTokens =
        ({ initial_state with
          lastToken := some { tokenType := NEWLINE, text := "\n  ", line := 1 }
          lastSeenOptionContent := some 2 } : LexerState).pendingTokens ++
          [({ tokenType := NEWLINE, text := "\n", line := 2 } : Tok)] ++
          [({ tokenType := BLANK_LINE_FOLLOWING_OPTION, text := "", line := 3 } : Tok)] ∧
      st1.lastSeenOptionContent = none ∧
      st1.lineContainsShortcut = false ∧
      st1.unbalancedIndents = [] ∧
      ∀ (tok2 : Tok) (curLine2 : Int), tok2.tokenType = NEWLINE →
        ∃ st2, check_next_token "test.yarn" curLine2 st1 tok2 = some st2 ∧
          countType BLANK_LINE_FOLLOWING_OPTION st2.pendingTokens =
            countType BLANK_LINE_FOLLOWING_OPTION st1.pendingTokens :=
  claim_c5 "test.yarn" 3
    { initial_state with
      lastToken := some { tokenType := NEWLINE, text := "\n  ", line := 1 }
      lastSeenOptionContent := some 2 }
    { tokenType := NEWLINE, text := "\n", line := 2 }
    { tokenType := NEWLINE, text := "\n  ", line := 1 }
    2 rfl rfl rfl rfl (by decide) rfl rfl


/-- C8 (amended): for every input, mixed tab/space indentation only adds
Warning-severity diagnostics and never aborts lexing; and for every input
token stream free of node-body-end tokens (and of externally injected
INDENT/DEDENT type codes, which the primitive lexer never emits), every
synthesized INDENT token is matched by a synthesized DEDENT token before
the end-of-input token is returned, and the indentation stack ends empty.
(A node-body-end token discards the remaining stack entries without
emitting DEDENTs, so INDENTs still open at a node-body-end are never
matched; see the counterexample.) -/
theorem claim_c8 :
    (∀ (file_name : String) (inputs : List (Tok × Int)) (st : LexerState),
      (run_lexer file_name inputs st).isSome) ∧
    (∀ (file_name : String) (inputs : List (Tok × Int)) (eofLine : Int),
      (∀ p ∈ inputs, p.1.tokenType ≠ BODY_END ∧ p.1.tokenType ≠ INDENT ∧
        p.1.tokenType ≠ DEDENT) →
      ∃ st1, run_lexer file_name
          (inputs ++ [({ tokenType := TOKEN_EOF, text := "<EOF>", line := eofLine }, eofLine)])
          initial_state = some st1 ∧
        countType INDENT st1.pendingTokens = countType DEDENT st1.pendingTokens ∧
        st1.unbalancedIndents = [] ∧
        ∀ d ∈ st1.diagnostics, d.severity = DiagnosticSeverity.Warning) := by
  constructor
  · intro f inputs st
    obtain ⟨st1, h1⟩ := run_lexer_isSome f inputs st
    rw [h1]
    rfl
  · intro f inputs eofLine hno
    obtain ⟨st0, h0⟩ := run_lexer_isSome f inputs initial_state
    have hbal_init : lexer_balance initial_state := by
      simp [lexer_balance, countType, initial_state]
    have hdiag_init : ∀ d ∈ initial_state.diagnostics,
        d.severity = DiagnosticSeverity.Warning := by
      simp [initial_state]
    obtain ⟨hbal0, hdiag0⟩ :=
      run_lexer_invariant f inputs initial_state st0 hno h0 hbal_init hdiag_init
    obtain ⟨st1, h1, hstack⟩ :=
      check_next_token_clears f eofLine st0
        { tokenType := TOKEN_EOF, text := "<EOF>", line := eofLine } (Or.inr rfl)
    obtain ⟨hbal1, ds, hds, hw⟩ :=
      check_next_token_invariant f eofLine st0 st1
        { tokenType := TOKEN_EOF, text := "<EOF>", line := eofLine }
        (by decide : (TOKEN_EOF : Int) ≠ BODY_END)
        (by decide : (TOKEN_EOF : Int) ≠ INDENT)
        (by decide : (TOKEN_EOF : Int) ≠ DEDENT) h1 hbal0
    refine ⟨st1, ?_, ?_, hstack, ?_⟩
    · rw [run_lexer_append, h0]
      simp [run_lexer, h1]
    · have := hbal1
      rw [lexer_balance, hstack] at this
      simpa using this
    · intro d hd
      rw [hds] at hd
      rcases List.mem_append.mp hd with hm | hm
      · exact hdiag0 d hm
      · exact hw d hm

/-- Counterexample for C8 as stated: in the token stream of a shortcut
block whose node-body-end line is still indented past a surviving stack
entry, the wrapper synthesizes one INDENT and no DEDENT at all before the
end-of-input token: the node-body-end handler discards the stack entry
without emitting a DEDENT, so the stream is not balanced. -/
theorem claim_c8_counterexample :
    Option.map
        (fun s => (countType INDENT s.pendingTokens, countType DEDENT s.pendingTokens))
        (run_lexer "test.yarn"
          [({ tokenType := SHORTCUT_ARROW, text := "->", line := 1 }, 1),
           ({ tokenType := NEWLINE, text := "\n  ", line := 1 }, 2),
           ({ tokenType := NEWLINE, text := "\n    ", line := 2 }, 3),
           ({ tokenType := BODY_END, text := "===", line := 3 }, 3),
           ({ tokenType := TOKEN_EOF, text := "<EOF>", line := 3 }, 3)]
          initial_state) =
      some (1, 0) := by
  decide

/-- Witness for C8 (amended): a shortcut block followed by end-of-input,
with no node-body-end token, yields balanced INDENT/DEDENT counts. -/
theorem claim_c8_witness :
    (run_lexer "test.yarn"
        [({ tokenType := BODY_END, text := "===", line := 1 }, 1)]
        initial_state).isSome ∧
    (∃ st1, run_lexer "test.yarn"
        ([({ tokenType := SHORTCUT_ARROW, text := "->", line := 1 }, 1),
          ({ tokenType := NEWLINE, text := "\n  ", line := 1 }, 2)] ++
          [({ tokenType := TOKEN_EOF, text := "<EOF>", line := 3 }, 3)])
        initial_state = some st1 ∧
      countType INDENT st1.pendingTokens = countType DEDENT st1.pendingTokens ∧
      st1.unbalancedIndents = [] ∧
      ∀ d ∈ st1.diagnostics, d.severity = DiagnosticSeverity.Warning) :=
  ⟨claim_c8.1 "test.yarn"
      [({ tokenType := BODY_END, text := "===", line := 1 }, 1)] initial_state,
    claim_c8.2 "test.yarn"
      [({ tokenType := SHORTCUT_ARROW, text := "->", line := 1 }, 1),
       ({ tokenType := NEWLINE, text := "\n  ", line := 1 }, 2)] 3 (by decide)⟩


theorem pipeline_core_lists (compilation_job : CompilationJob) :
    (find_tracking_nodes (get_declarations (register_strings
        (from_job compilation_job)))).known_variable_declarations = [] ∧
    (find_tracking_nodes (get_declarations (register_strings
        (from_job compilation_job)))).derived_variable_declarations = [] ∧
    (find_tracking_nodes (get_declarations (register_strings
        (from_job compilation_job)))).result.declarations =
      compilation_job.files.flatMap SourceFile.new_declarations := by
  have e1 : register_strings (from_job compilation_job) =
      List.foldl register_strings_step (from_job compilation_job)
        (from_job compilation_job).job.files := rfl
  have e2 : get_declarations (register_strings (from_job compilation_job)) =
      List.foldl get_declarations_step (register_strings (from_job compilation_job))
        (register_strings (from_job compilation_job)).parsed_files := rfl
  obtain ⟨hj, hk, hd, ht, hp, hdec⟩ :=
    register_strings_foldl (from_job compilation_job).job.files (from_job compilation_job)
  obtain ⟨gj, gk, gd, gt, gp, gdec⟩ :=
    get_declarations_foldl (register_strings (from_job compilation_job)).parsed_files
      (register_strings (from_job compilation_job))
  rw [← e1] at hj hk hd ht hp hdec
  rw [← e2] at gj gk gd gt gp gdec
  have fk : (find_tracking_nodes (get_declarations (register_strings
      (from_job compilation_job)))).known_variable_declarations =
      (get_declarations (register_strings
        (from_job compilation_job))).known_variable_declarations := rfl
  have fd : (find_tracking_nodes (get_declarations (register_strings
      (from_job compilation_job)))).derived_variable_declarations =
      (get_declarations (register_strings
        (from_job compilation_job))).derived_variable_declarations := rfl
  have fr : (find_tracking_nodes (get_declarations (register_strings
      (from_job compilation_job)))).result =
      (get_declarations (register_strings (from_job compilation_job))).result := rfl
  refine ⟨?_, ?_, ?_⟩
  · rw [fk, gk, hk]
    rfl
  · rw [fd, gd, hd]
    rfl
  · rw [fr, gdec, hdec, hp]
    show ([] : List Declaration) ++
        (([] : List SourceFile).flatMap SourceFile.new_declarations ++
          compilation_job.files.flatMap SourceFile.new_declarations) =
      compilation_job.files.flatMap SourceFile.new_declarations
    simp

/-- C7: compile on a job with an empty file list returns a result with
empty diagnostics, empty declarations, an empty string table and an empty
file-tags mapping, without error, and still runs all four passes
(register_strings, get_declarations, find_tracking_nodes,
add_tracking_declarations) to completion. -/
theorem claim_c7 :
    compile [] { files := [], variable_declarations := [] } =
      { diagnostics := [], declarations := [], string_table := [], file_tags := [] } ∧
    compile [] { files := [], variable_declarations := [] } =
      (add_tracking_declarations []
        (find_tracking_nodes
          (get_declarations
            (register_strings
              (from_job { files := [], variable_declarations := [] }))))).result :=
  ⟨rfl, rfl⟩

/-- C2: the final tracked-node set computed by the pipeline equals the
union over all files of the nodes requesting tracking minus the union over
all files of the nodes opted out, and it is identical for every
permutation of the job's file list. -/
theorem claim_c2 :
    (∀ compilation_job : CompilationJob,
      tracked_of compilation_job =
        requested_union compilation_job.files \ opted_out_union compilation_job.files) ∧
    (∀ job1 job2 : CompilationJob, job1.files.Perm job2.files →
      tracked_of job1 = tracked_of job2) := by
  constructor
  · exact tracked_of_eq
  · intro job1 job2 hperm
    rw [tracked_of_eq, tracked_of_eq]
    have h1 := foldl_union_perm SourceFile.tracking_nodes job1.files job2.files hperm
    have h2 := foldl_union_perm SourceFile.ignoring_nodes job1.files job2.files hperm
    unfold requested_union opted_out_union
    rw [h1, h2]

/-- Witness for C2: with file A requesting tracking for X and file B
opting X out, the tracked set is the same for both file orders, matches
the set formula, and is empty. -/
theorem claim_c2_witness :
    tracked_of job_request_then_ignore =
      requested_union job_request_then_ignore.files \
        opted_out_union job_request_then_ignore.files ∧
    tracked_of job_request_then_ignore = tracked_of job_ignore_then_request ∧
    tracked_of job_request_then_ignore = ∅ :=
  ⟨claim_c2.1 job_request_then_ignore,
    claim_c2.2 job_request_then_ignore job_ignore_then_request
      (List.Perm.swap file_ignoring_x file_requesting_x []),
    by decide⟩

/-- C6: compiling identical jobs twice — under any two iteration orders of
the tracked-node hash set, the only source of nondeterminism in the Rust
code — yields identical diagnostics (in order), identical declarations,
an identical string table, and an identical CompilationResult. -/
theorem claim_c6 (job1 job2 : CompilationJob) (o1 o2 : List String)
    (heq : job1 = job2)
    (_hv1 : valid_order o1 (tracked_of job1))
    (_hv2 : valid_order o2 (tracked_of job2)) :
    (compile o1 job1).diagnostics = (compile o2 job2).diagnostics ∧
    (compile o1 job1).declarations = (compile o2 job2).declarations ∧
    (compile o1 job1).string_table = (compile o2 job2).string_table ∧
    compile o1 job1 = compile o2 job2 := by
  subst heq
  exact ⟨rfl, rfl, rfl, rfl⟩

/-- Witness for C6: a single-file job compiled under the (unique) hash-set
iteration order gives equal results on both runs. -/
theorem claim_c6_witness :
    (compile ["X"] { files := [file_requesting_x], variable_declarations := [] }).diagnostics =
      (compile ["X"] { files := [file_requesting_x], variable_declarations := [] }).diagnostics ∧
    (compile ["X"] { files := [file_requesting_x], variable_declarations := [] }).declarations =
      (compile ["X"] { files := [file_requesting_x], variable_declarations := [] }).declarations ∧
    (compile ["X"] { files := [file_requesting_x], variable_declarations := [] }).string_table =
      (compile ["X"] { files := [file_requesting_x], variable_declarations := [] }).string_table ∧
    compile ["X"] { files := [file_requesting_x], variable_declarations := [] } =
      compile ["X"] { files := [file_requesting_x], variable_declarations := [] } :=
  claim_c6 { files := [file_requesting_x], variable_declarations := [] }
    { files := [file_requesting_x], variable_declarations := [] }
    ["X"] ["X"] rfl ⟨by decide, by decide⟩ ⟨by decide, by decide⟩


/-- C1 (amended): for every job whose computed tracked-node set is exactly
the node title "Start" and every valid hash-set iteration order, the
pipeline synthesizes exactly one tracking Declaration: numeric type,
default value 0, name deterministically derived from "Start" — appended to
both the known and the derived declaration lists of the pipeline state.
The returned CompilationResult's declarations are only the files' explicit
declarations: the synthesized tracking declaration is not among them,
because this pipeline never copies the derived list into the result. -/
theorem claim_c1 (compilation_job : CompilationJob) (order : List String)
    (hv : valid_order order (tracked_of compilation_job))
    (htr : tracked_of compilation_job = {"Start"}) :
    (compile_state order compilation_job).derived_variable_declarations =
      [make_tracking_declaration "Start"] ∧
    (compile_state order compilation_job).known_variable_declarations =
      [make_tracking_declaration "Start"] ∧
    (make_tracking_declaration "Start").decl_type = DeclarationType.number ∧
    (make_tracking_declaration "Start").default_value = 0 ∧
    (make_tracking_declaration "Start").name =
      generate_unique_visited_variable_for_node "Start" ∧
    (compile order compilation_job).declarations =
      compilation_job.files.flatMap SourceFile.new_declarations := by
  obtain ⟨hnd, hto⟩ := hv
  rw [htr] at hto
  have horder : order = ["Start"] := nodup_toFinset_singleton order "Start" hnd hto
  subst horder
  obtain ⟨hk, hd, hdec⟩ := pipeline_core_lists compilation_job
  refine ⟨?_, ?_, rfl, rfl, rfl, ?_⟩
  · have e : (compile_state ["Start"] compilation_job).derived_variable_declarations =
        (find_tracking_nodes (get_declarations (register_strings
          (from_job compilation_job)))).derived_variable_declarations ++
          [make_tracking_declaration "Start"] := rfl
    rw [e, hd]
    rfl
  · have e : (compile_state ["Start"] compilation_job).known_variable_declarations =
        (find_tracking_nodes (get_declarations (register_strings
          (from_job compilation_job)))).known_variable_declarations ++
          [make_tracking_declaration "Start"] := rfl
    rw [e, hk]
    rfl
  · have e : (compile ["Start"] compilation_job).declarations =
        (find_tracking_nodes (get_declarations (register_strings
          (from_job compilation_job)))).result.declarations := rfl
    rw [e, hdec]

/-- Counterexample for C1 as stated: compiling the single node "Start"
whose body calls the visit-tracking built-in does compute the tracked set
containing exactly "Start", and does synthesize the tracking declaration
into the pipeline's derived list — but the CompilationResult returned by
compile has an empty declarations list, so it does not contain the
synthesized tracking Declaration. -/
theorem claim_c1_counterexample :
    tracked_of job_tracking_start = {"Start"} ∧
    (compile ["Start"] job_tracking_start).declarations = [] ∧
    (compile_state ["Start"] job_tracking_start).derived_variable_declarations =
      [make_tracking_declaration "Start"] :=
  ⟨by decide, rfl, rfl⟩

/-- Witness for C1 (amended), at the single-file job tracking "Start". -/
theorem claim_c1_witness :
    (compile_state ["Start"] job_tracking_start).derived_variable_declarations =
      [make_tracking_declaration "Start"] ∧
    (compile_state ["Start"] job_tracking_start).known_variable_declarations =
      [make_tracking_declaration "Start"] ∧
    (make_tracking_declaration "Start").decl_type = DeclarationType.number ∧
    (make_tracking_declaration "Start").default_value = 0 ∧
    (make_tracking_declaration "Start").name =
      generate_unique_visited_variable_for_node "Start" ∧
    (compile ["Start"] job_tracking_start).declarations =
      job_tracking_start.files.flatMap SourceFile.new_declarations :=
  claim_c1 job_tracking_start ["Start"] ⟨by decide, by decide⟩ (by decide)

end YarnSpinner
